import Mathlib

/-!
Shallow embedding of the private-tree layer of `qri-io/wnfs-go`
(`src/private/private.go`), together with models of the external
collaborators that the source file uses but that are not part of `src/`
(the spiral-ratchet package, the name-filter scheme, the block store,
the HAMT index and the ratchet store; their interface contracts are
specified in sections 4.A, 4.B and 6 of the specification).

Modelling conventions, fixed once here:
* 32-byte keys and INumbers are opaque identifiers; they are modelled as
  natural numbers.  Equality is the only operation the embedded code
  performs on them.
* AEAD encryption is modelled symbolically: a sealed block remembers the
  key it was sealed with, and decryption succeeds exactly when the same
  key is presented (`ErrKeyMismatch` otherwise).  Nonces are irrelevant
  to every observable the claims mention and are omitted.
* CIDs are assigned by the block store from a counter, standing in for
  content hashing; blocks are immutable once stored, which is all the
  embedded operations rely on.
* Ambient effects of the Go code (crypto/rand, the clock) are threaded
  through the store state: `nextRand` is the randomness tape and `now`
  the clock read by `base.Timestamp()`.
* Go functions returning `(T, error)` become `Except Err T`.  A method
  call on a nil pointer receiver (a Go runtime panic) is modelled as the
  dedicated error `Err.nilRatchet` / `Err.noContent`.
* Go methods that mutate their receiver return the updated value.
-/

namespace Wnfs

/-- Errors of the embedded code, mirroring the error taxonomy of the
source: `base.ErrNotFound`, AEAD failure, malformed blocks, the
"invalid path: empty" errors, `ErrHistoryTooDeep` from
`ratchet.Previous`, and the two nil-pointer panics reachable in the
source (`Inc` on a nil ratchet, reading nil file content). -/
inductive Err where
  | notFound
  | keyMismatch
  | malformed
  | invalidPath
  | historyTooDeep
  | nilRatchet
  | noContent
deriving DecidableEq, Repr

/-- A 32-byte symmetric key (source type `Key [32]byte`), modelled as an
opaque natural number. -/
abbrev Key := Nat

/-- A 32-byte random node identity (source type `INumber [32]byte`),
modelled as an opaque natural number.  `INumber.Encode` (URL-base64) is
injective, so the ratchet store is keyed by the INumber itself. -/
abbrev INumber := Nat

/-- Modelled from the spec (section 4.A): the spiral ratchet lives in the
`ratchet` package, which is not under `src/`.  The claims depend only on
the ratchet being a deterministic forward-advancing state with an
injective derived key, so the three-register odometer is abstracted to a
seed (the initial randomness) and the number of `Inc` steps taken. -/
structure Spiral where
  seed : Nat
  step : Nat
deriving DecidableEq, Repr

/-- Modelled from the spec: `Inc` advances the ratchet one step
(deterministic, never moves backward). -/
def Spiral.Inc (r : Spiral) : Spiral :=
  { r with step := r.step + 1 }

/-- Modelled from the spec: `Key()` derives the 32-byte key from the
current state; distinct states yield distinct keys (`Nat.pair` is
injective). -/
def Spiral.Key (r : Spiral) : Key :=
  Nat.pair r.seed r.step

/-- Modelled from the spec: `NewSpiral()` draws fresh randomness; the
model takes the randomness tape position explicitly. -/
def NewSpiral (rnd : Nat) : Spiral :=
  { seed := rnd, step := 0 }

/-- Modelled from the spec: `NewINumber()` draws 32 fresh random bytes. -/
def NewINumber (rnd : Nat) : INumber :=
  rnd

/-- Modelled from the spec (section 4.A): `Previous(oldest, max)` replays
`Inc` forward from `oldest` and returns up to `max` intermediate states
in reverse-chronological order, or `ErrHistoryTooDeep` when `self` is
not reachable from `oldest`. -/
def Spiral.Previous (self oldest : Spiral) (maxRevs : Nat) : Except Err (List Spiral) :=
  if oldest.seed = self.seed ∧ oldest.step ≤ self.step then
    .ok ((((List.range (self.step - oldest.step)).map
      (fun i => Spiral.mk self.seed (oldest.step + i))).reverse).take maxRevs)
  else
    .error .historyTooDeep

/-- Modelled from the spec (section 4.B): a bare name filter represents
the set of ancestor INumbers of a node; the Bloom-filter bit array is
abstracted to the list of added elements. -/
abbrev BareNamefilter := List INumber

/-- Modelled from the spec: the empty name filter. -/
def IdentityBareNamefilter : BareNamefilter :=
  []

/-- Modelled from the spec: `NewBareNamefilter(parent, in)` adds the
node's INumber to the parent's bare filter. -/
def NewBareNamefilter (parent : BareNamefilter) (inum : INumber) : BareNamefilter :=
  inum :: parent

/-- Modelled from the spec: a keyed name filter is the bare filter with
the current key added. -/
structure KeyedNamefilter where
  bare : BareNamefilter
  key : Key
deriving DecidableEq, Repr

/-- Modelled from the spec: `AddKey(bare, key)`, deterministic. -/
def AddKey (bare : BareNamefilter) (key : Key) : KeyedNamefilter :=
  { bare := bare, key := key }

/-- A private name: the flat lookup key of the external index.  The
SHA-256 of the saturated keyed filter is modelled by the keyed filter
itself (an injective stand-in, per the spec's requirement that distinct
`(bare, key)` pairs produce distinct names). -/
abbrev Name := KeyedNamefilter

/-- Modelled from the spec: `ToName(keyed)` saturates and hashes the
keyed filter; modelled as the injective identity. -/
def ToName (knf : KeyedNamefilter) : Name :=
  knf

/-- Node type tag (source `base.NodeType`): `NTDir`, `NTFile`,
`NTDataFile`. -/
inductive NodeType where
  | dir
  | file
  | dataFile
deriving DecidableEq, Repr, Inhabited

/-- Modelled from the spec: `base.LatestVersion` (the `WNFS` semantic
version stamp); its concrete value is not observable by any claim. -/
def LatestVersion : Nat :=
  0

/-- Modelled from the spec: `base.ModeDefault`, the default permission
bits of a fresh node; concrete value not observable by any claim. -/
def ModeDefault : Nat :=
  420

/-- A structured data-file value (`interface{}` in the source).  The
model restricts values to byte strings and the null value (`Option`),
which is enough to exercise every claim. -/
abbrev Val := List Nat

/-- Source `HeaderInfo`.  `Ratchet string` (the encoded ratchet, `""`
when unset) is modelled as `Option Spiral`. -/
structure HeaderInfo where
  wnfs : Nat
  type : NodeType
  mode : Nat
  ctime : Int
  mtime : Int
  size : Int
  inumber : INumber
  bareNamefilter : BareNamefilter
  ratchetEnc : Option Spiral
deriving DecidableEq, Repr

/-- Source `NewHeaderInfo(nt, in, bnf)`; the clock is passed explicitly
(`base.Timestamp().Unix()` in Go). -/
def NewHeaderInfo (nt : NodeType) (inum : INumber) (bnf : BareNamefilter) (now : Int) : HeaderInfo :=
  { wnfs := LatestVersion
    type := nt
    mode := ModeDefault
    ctime := now
    mtime := now
    size := 0
    inumber := inum
    bareNamefilter := bnf
    ratchetEnc := none }

/-- Source `HeaderInfo.Copy()`: a field-wise copy. -/
def HeaderInfo.Copy (hi : HeaderInfo) : HeaderInfo :=
  { wnfs := hi.wnfs
    type := hi.type
    mode := hi.mode
    ctime := hi.ctime
    mtime := hi.mtime
    size := hi.size
    inumber := hi.inumber
    bareNamefilter := hi.bareNamefilter
    ratchetEnc := hi.ratchetEnc }

/-- Source `PrivateLink` (a `base.Link` plus key and pointer): the
parent directory's reference to a child. -/
structure PrivateLink where
  name : String
  size : Int
  isFile : Bool
  cid : Nat
  key : Key
  pointer : Name
deriving DecidableEq, Repr

/-- Source `PrivateLinks`, a map from child name to link; modelled as an
association list whose keys are the link names (map iteration order is
irrelevant: the only ordered observation, `SortedSlice`, sorts). -/
abbrev PrivateLinks := List PrivateLink

/-- Source `PrivateLinks.Get`: map lookup by name. -/
def PrivateLinks.Get (pls : PrivateLinks) (name : String) : Option PrivateLink :=
  match pls with
  | [] => none
  | l :: rest => if l.name = name then some l else PrivateLinks.Get rest name

/-- Source `PrivateLinks.Add`: map insert keyed by `link.Name`
(overwrites an existing entry with the same name). -/
def PrivateLinks.Add (pls : PrivateLinks) (link : PrivateLink) : PrivateLinks :=
  (pls.filter (fun e => e.name ≠ link.name)) ++ [link]

/-- Source `PrivateLinks.Remove`: map delete; the Go method also returns
whether the entry existed, which every caller in the source ignores. -/
def PrivateLinks.Remove (pls : PrivateLinks) (name : String) : PrivateLinks :=
  pls.filter (fun e => e.name ≠ name)

/-- Source `PrivateLinks.SizeSum`: total of the link sizes. -/
def PrivateLinks.SizeSum (pls : PrivateLinks) : Int :=
  pls.foldr (fun l acc => l.size + acc) 0

/-- Byte-wise lexicographic comparison of strings by code point,
mirroring Go's `sort.Strings` order (UTF-8 byte order and code-point
order coincide). -/
def strListLe : List Char → List Char → Bool
  | [], _ => true
  | _ :: _, [] => false
  | a :: as, b :: bs =>
    if a.val.toNat < b.val.toNat then true
    else if b.val.toNat < a.val.toNat then false
    else strListLe as bs

/-- String comparison used by the model of `sort.Strings`. -/
def strLe (a b : String) : Bool :=
  strListLe a.data b.data

/-- Source `PrivateLinks.SortedSlice`: collect the map keys, sort them
ascending, and read the links back in that order. -/
def PrivateLinks.SortedSlice (pls : PrivateLinks) : List PrivateLink :=
  (List.insertionSort (fun a b => strLe a b = true) (pls.map (fun l => l.name))).filterMap
    (fun n => PrivateLinks.Get pls n)

/-- The body of a stored block, with the symbolic seal key.  The four
shapes are: a node header envelope (`info` + `content` CID +
optional `metadata`), an encrypted link table, a data-file envelope
(`info` + inline `value`), and encrypted file content
(`PutEncryptedFile`). -/
inductive BlockBody where
  | header (sealKey : Key) (info : HeaderInfo) (contentID : Option Nat) (metadata : Option Nat)
  | links (sealKey : Key) (links : PrivateLinks)
  | dataFile (sealKey : Key) (info : HeaderInfo) (value : Option Val) (metadata : Option Nat)
  | fileContent (sealKey : Key) (bytes : List Nat)
deriving DecidableEq, Repr

/-- The composite store state behind the source's `Store` interface
(section 6 of the spec): the content-addressed block store, the HAMT
index (`name → header CID`), the ratchet store (`INumber → oldest known
ratchet`), plus the randomness tape and the clock (see the conventions
at the top of the file). -/
structure Store where
  blocks : List (Nat × BlockBody)
  nextCid : Nat
  hamt : List (Name × Nat)
  ratchets : List (INumber × Spiral)
  nextRand : Nat
  now : Int
deriving DecidableEq, Repr

/-- Store a block, assigning it the next CID. -/
def Store.putBlock (s : Store) (b : BlockBody) : Nat × Store :=
  (s.nextCid,
   { s with blocks := (s.nextCid, b) :: s.blocks, nextCid := s.nextCid + 1 })

/-- Source `Blockservice().GetBlock`: CID lookup. -/
def Store.lookupBlock (s : Store) (id : Nat) : Option BlockBody :=
  ((s.blocks.find? (fun e => e.1 = id)).map (fun e => e.2))

/-- Source `HAMT().Root().Set(name, cidBytes)`: insert or overwrite. -/
def Store.hamtSet (s : Store) (n : Name) (id : Nat) : Store :=
  { s with hamt := (n, id) :: s.hamt.filter (fun e => e.1 ≠ n) }

/-- Source `HAMT().Root().Find` / `FindRaw`: index lookup by name. -/
def Store.hamtFind (s : Store) (n : Name) : Option Nat :=
  ((s.hamt.find? (fun e => e.1 = n)).map (fun e => e.2))

/-- Modelled from the spec (section 4.F): `RatchetStore().PutRatchet`
records a ratchet state for an INumber and returns the previous one; the
store keeps the oldest known state per INumber (the lower bound used by
history walks). -/
def Store.putRatchet (s : Store) (inum : INumber) (r : Spiral) : Option Spiral × Store :=
  match s.ratchets.find? (fun e => e.1 = inum) with
  | some e => (some e.2, s)
  | none => (none, { s with ratchets := (inum, r) :: s.ratchets })

/-- Modelled from the spec: `RatchetStore().OldestKnownRatchet` returns
the stored ratchet for the INumber, or nil (with a nil error) when the
INumber is unknown. -/
def Store.oldestKnownRatchet (s : Store) (inum : INumber) : Option Spiral :=
  ((s.ratchets.find? (fun e => e.1 = inum)).map (fun e => e.2))

/-- Source `Header`: the in-memory decoded node envelope. -/
structure Header where
  info : HeaderInfo
  metadata : Option Nat
  contentID : Option Nat
  value : Option (Option Val)
deriving DecidableEq, Repr

/-- Source `PutResult` (the private one wrapping `public.PutResult`). -/
structure PutResult where
  cid : Nat
  size : Int
  type : NodeType
  userland : Option Nat
  key : Key
  pointer : Name
deriving DecidableEq, Repr

/-- Source `PutResult.ToPrivateLink(name)`; `base.Link.IsFile` (the
`base` package is not under `src/`) is the node type being non-directory. -/
def PutResult.ToPrivateLink (r : PutResult) (name : String) : PrivateLink :=
  { name := name
    size := r.size
    isFile := decide (r.type ≠ NodeType.dir)
    cid := r.cid
    key := r.key
    pointer := r.pointer }

/-- Source `Tree`: a private directory.  `links = none` models the nil
(not yet loaded) Go map; `ratchet = none` models a nil `*ratchet.Spiral`. -/
structure Tree where
  name : String
  cid : Option Nat
  header : Header
  ratchet : Option Spiral
  links : Option PrivateLinks
deriving DecidableEq, Repr

/-- Source `File`: a private byte-stream file.  `content = none` models
a nil `io.ReadCloser` (content not supplied / not yet loaded). -/
structure File where
  name : String
  cid : Option Nat
  header : Header
  ratchet : Option Spiral
  content : Option (List Nat)
deriving DecidableEq, Repr

/-- Source `DataFile`: a private structured-data file.  The separate
`Metadata *cid.Cid` field of the Go struct is `metadata`. -/
structure DataFile where
  name : String
  cid : Option Nat
  header : Header
  ratchet : Option Spiral
  metadata : Option Nat
  content : Option Val
deriving DecidableEq, Repr

/-- The three node variants returned by `LoadNode`. -/
inductive Node where
  | tree (t : Tree)
  | file (f : File)
  | dataFile (d : DataFile)
deriving DecidableEq, Repr

/-- Whether a loaded node is a directory. -/
def Node.isDirNode : Node → Bool
  | .tree _ => true
  | _ => false

/-- Source `Tree.Mode()` (line 305): reads `Ctime`, converted through
`fs.FileMode` (a `uint32`, hence reduction mod 2^32 of the `int64`). -/
def uint32OfInt (i : Int) : Nat :=
  (i % 4294967296).toNat

/-- Source `Tree.Mode()`: `fs.FileMode(pt.header.Info.Ctime)`. -/
def Tree.Mode (t : Tree) : Nat :=
  uint32OfInt t.header.info.ctime

/-- Source `File.Mode()`: `fs.FileMode(pf.header.Info.Mode)`. -/
def File.Mode (f : File) : Nat :=
  f.header.info.mode

/-- Source `DataFile.Mode()`: `fs.FileMode(df.header.Info.Mode)`. -/
def DataFile.Mode (d : DataFile) : Nat :=
  d.header.info.mode

/-- Source `Tree.Key()` = `pt.ratchet.Key()`; `none` when the ratchet
pointer is nil (the Go call would panic). -/
def Tree.KeyOf (t : Tree) : Option Key :=
  t.ratchet.map Spiral.Key

/-- Source `Tree.PrivateName()` / `File.PrivateName()` /
`DataFile.PrivateName()`: name of the current revision. -/
def privateNameOf (bnf : BareNamefilter) (r : Spiral) : Name :=
  ToName (AddKey bnf r.Key)

/-- Source `decodeHeaderBlock`: decrypt the `info` field (AEAD failure
is `ErrKeyMismatch`), then branch on the decoded type: a data-file
header must carry an inline `value`, any other type must carry a
`content` CID. -/
def decodeHeaderBlock (b : BlockBody) (key : Key) : Except Err Header :=
  match b with
  | .header sealKey info contentID metadata =>
    if sealKey = key then
      match info.type with
      | .dataFile => .error .malformed
      | _ => .ok { info := info, metadata := metadata, contentID := contentID, value := none }
    else .error .keyMismatch
  | .dataFile sealKey info value metadata =>
    if sealKey = key then
      match info.type with
      | .dataFile => .ok { info := info, metadata := metadata, contentID := none, value := some value }
      | _ => .error .malformed
    else .error .keyMismatch
  | .links _ _ => .error .malformed
  | .fileContent _ _ => .error .malformed

/-- Source `loadHeader`: fetch the block and decode it. -/
def loadHeader (s : Store) (key : Key) (id : Nat) : Except Err Header :=
  match s.lookupBlock id with
  | none => .error .notFound
  | some b => decodeHeaderBlock b key

/-- Source `unmarshalPrivateLinksBlock`: decrypt and decode a link
table. -/
def unmarshalPrivateLinksBlock (b : BlockBody) (key : Key) : Except Err PrivateLinks :=
  match b with
  | .links sealKey links => if sealKey = key then .ok links else .error .keyMismatch
  | _ => .error .malformed

/-- Source `LoadTree`: load a header, decode its ratchet (an empty
encoded ratchet is an error), and build a `Tree` with an unloaded link
table.  Note that the source never checks that the header's type is
`NTDir`. -/
def LoadTree (s : Store) (name : String) (key : Key) (id : Nat) : Except Err Tree :=
  match loadHeader s key id with
  | .error e => .error e
  | .ok h =>
    match h.info.ratchetEnc with
    | none => .error .malformed
    | some r =>
      .ok { name := name
            cid := some id
            ratchet := some r
            header := { h with info := { h.info with ratchetEnc := none } }
            links := none }

/-- Source `LoadNode`: load a header and dispatch on its decoded type. -/
def LoadNode (s : Store) (name : String) (id : Nat) (key : Key) : Except Err Node :=
  match loadHeader s key id with
  | .error e => .error e
  | .ok h =>
    match h.info.ratchetEnc with
    | none => .error .malformed
    | some r =>
      match h.info.type with
      | .file =>
        .ok (.file { name := name
                     cid := some id
                     ratchet := some r
                     header := { h with info := { h.info with ratchetEnc := none } }
                     content := none })
      | .dataFile =>
        .ok (.dataFile { name := name
                         cid := some id
                         ratchet := some r
                         header := { h with info := { h.info with ratchetEnc := none } }
                         metadata := none
                         content := (h.value.getD none) })
      | .dir =>
        .ok (.tree { name := name
                     cid := some id
                     ratchet := some r
                     header := { h with info := { h.info with ratchetEnc := none } }
                     links := none })

/-- Source `Tree.ensureLinks`: load the link table from the content
block if it is not in memory yet (decrypting with the tree's current
key). -/
def Tree.ensureLinks (t : Tree) (s : Store) : Except Err Tree :=
  match t.links with
  | some _ => .ok t
  | none =>
    match t.ratchet with
    | none => .error .nilRatchet
    | some r =>
      match t.header.contentID with
      | none => .error .notFound
      | some id =>
        match s.lookupBlock id with
        | none => .error .notFound
        | some b =>
          match unmarshalPrivateLinksBlock b r.Key with
          | .error e => .error e
          | .ok l => .ok { t with links := some l }

/-- Source `Tree.Put` (lines 707-755): advance the ratchet, re-seal the
link table and header under the new key, publish both blocks, record the
ratchet in the ratchet store, and write `name → headerCID` into the
HAMT index.  A nil link table is marshalled as an empty table (Go range
over a nil map).  Returns the `PutResult`, the updated tree, and the
updated store. -/
def Tree.Put (t : Tree) (s : Store) : Except Err (PutResult × Tree × Store) :=
  match t.ratchet with
  | none => .error .nilRatchet
  | some r0 =>
    let r := r0.Inc
    let key := r.Key
    let links := t.links.getD []
    let t2 := { t with ratchet := some r,
                       header.info.ratchetEnc := some r,
                       header.info.size := PrivateLinks.SizeSum links }
    let pb1 := s.putBlock (.links key links)
    let t3 := { t2 with header.contentID := some pb1.1 }
    let pb2 := pb1.2.putBlock (.header key t3.header.info t3.header.contentID t3.header.metadata)
    let t4 := { t3 with cid := some pb2.1 }
    let name := privateNameOf t4.header.info.bareNamefilter r
    let s3 := (pb2.2.putRatchet t4.header.info.inumber r).2
    let s4 := s3.hamtSet name pb2.1
    .ok ({ cid := pb2.1
           size := t4.header.info.size
           type := t4.header.info.type
           userland := none
           key := key
           pointer := name }, t4, s4)

/-- Source `Tree.updateUserlandLink`: insert/replace the child link and
touch `Mtime`. -/
def Tree.updateUserlandLink (t : Tree) (name : String) (res : PutResult) (now : Int) : Tree :=
  { t with links := some (PrivateLinks.Add (t.links.getD []) (res.ToPrivateLink name)),
           header.info.mtime := now }

/-- Source `Tree.removeUserlandLink`: delete the child link (no
existence check) and touch `Mtime`. -/
def Tree.removeUserlandLink (t : Tree) (name : String) (now : Int) : Tree :=
  { t with links := some (PrivateLinks.Remove (t.links.getD []) name),
           header.info.mtime := now }

/-- Source `NewEmptyTree`: fresh INumber, fresh ratchet, empty (non-nil)
link table. -/
def NewEmptyTree (s : Store) (parent : BareNamefilter) (name : String) : Tree × Store :=
  let inum := NewINumber s.nextRand
  let bnf := NewBareNamefilter parent inum
  let spiral := NewSpiral (s.nextRand + 1)
  ({ name := name
     cid := none
     ratchet := some spiral
     header := { info := NewHeaderInfo .dir inum bnf s.now
                 metadata := none
                 contentID := none
                 value := none }
     links := some [] },
   { s with nextRand := s.nextRand + 2 })

/-- Source `NewEmptyRoot` (lines 110-119): wraps `NewEmptyTree(store,
IdentityBareNamefilter(), name)` in a `Root`; the `Root` adds only the
runtime context, so it is modelled by the tree itself.  The `rootKey`
argument appears in the signature exactly as in the source. -/
def NewEmptyRoot (s : Store) (name : String) (rootKey : Key) : Tree × Store :=
  NewEmptyTree s IdentityBareNamefilter name

/-- Source `NewFile`: fresh INumber and ratchet, the supplied content
stream. -/
def NewFile (s : Store) (parent : BareNamefilter) (f : Option (List Nat)) : File × Store :=
  let inum := NewINumber s.nextRand
  let bnf := NewBareNamefilter parent inum
  let spiral := NewSpiral (s.nextRand + 1)
  ({ name := ""
     cid := none
     ratchet := some spiral
     header := { info := NewHeaderInfo .file inum bnf s.now
                 metadata := none
                 contentID := none
                 value := none }
     content := f },
   { s with nextRand := s.nextRand + 2 })

/-- Source `NewDataFile`: fresh INumber and ratchet, the supplied
structured value. -/
def NewDataFile (s : Store) (name : String) (content : Option Val) (parent : BareNamefilter) :
    DataFile × Store :=
  let inum := NewINumber s.nextRand
  let bnf := NewBareNamefilter parent inum
  let spiral := NewSpiral (s.nextRand + 1)
  ({ name := name
     cid := none
     ratchet := some spiral
     header := { info := NewHeaderInfo .dataFile inum bnf s.now
                 metadata := none
                 contentID := none
                 value := none }
     metadata := none
     content := content },
   { s with nextRand := s.nextRand + 2 })

/-- Source `File.Put` (lines 915-972): advance the ratchet, store the
encrypted content (`PutEncryptedFile`, whose result size is the
userland byte length), update the header, publish the header block,
record the ratchet, and set the HAMT index entry.  `Inc` on a nil
ratchet and reading nil content are the panics noted in the
conventions. -/
def File.Put (f : File) (s : Store) : Except Err (PutResult × File × Store) :=
  match f.ratchet with
  | none => .error .nilRatchet
  | some r0 =>
    let r := r0.Inc
    let key := r.Key
    match f.content with
    | none => .error .noContent
    | some bytes =>
      let pb1 := s.putBlock (.fileContent key bytes)
      let size : Int := bytes.length
      let f2 := { f with ratchet := some r,
                         header.contentID := some pb1.1,
                         header.info.size := size,
                         header.info.ratchetEnc := some r,
                         header.info.mtime := s.now }
      let pb2 := pb1.2.putBlock (.header key f2.header.info f2.header.contentID f2.header.metadata)
      let f3 := { f2 with cid := some pb2.1 }
      let name := privateNameOf f3.header.info.bareNamefilter r
      let s3 := (pb2.2.putRatchet f3.header.info.inumber r).2
      let s4 := s3.hamtSet name pb2.1
      .ok ({ cid := pb2.1
             size := size
             type := f3.header.info.type
             userland := some pb1.1
             key := key
             pointer := name }, f3, s4)

/-- Source `DataFile.Put` (lines 1503-1537): advance the ratchet, update
`Ratchet` and `Mtime` in the header (the `Size` update is commented out
in the source: `// df.header.Info.Size = ???`), seal and publish the
single envelope block.  Unlike `Tree.Put` and `File.Put`, the source
never calls `RatchetStore().PutRatchet` and never writes the
`name → CID` mapping into the HAMT index. -/
def DataFile.Put (df : DataFile) (s : Store) : Except Err (PutResult × DataFile × Store) :=
  match df.ratchet with
  | none => .error .nilRatchet
  | some r0 =>
    let r := r0.Inc
    let key := r.Key
    let df2 := { df with ratchet := some r,
                         header.info.ratchetEnc := some r,
                         header.info.mtime := s.now }
    let pb := s.putBlock (.dataFile key df2.header.info df2.content df2.metadata)
    let df3 := { df2 with cid := some pb.1 }
    let name := privateNameOf df3.header.info.bareNamefilter r
    .ok ({ cid := pb.1
           size := df3.header.info.size
           type := df3.header.info.type
           userland := some pb.1
           key := r.Key
           pointer := name }, df3, pb.2)

/-- The argument of `Update(change fs.File)`: the source type-switches
on whether `change` implements `base.LinkedDataFile` (a structured-data
source whose `Data()` yields a value) or is a plain byte stream. -/
inductive UpdateSource where
  | dataSource (v : Option Val)
  | byteStream (bytes : List Nat)
deriving DecidableEq, Repr

/-- Source `File.Update` (lines 889-913): with a structured-data source
it transmutes to a `DataFile` (copying the header info and metadata,
setting the type to `NTDataFile`) and calls `Put` on it; the Go struct
literal never assigns the new node's `ratchet` field, so that `Put`
begins with `Inc` on a nil pointer.  With a byte stream it replaces its
own content and puts itself. -/
def File.Update (pf : File) (change : UpdateSource) (s : Store) :
    Except Err (PutResult × Store) :=
  match change with
  | .dataSource v =>
    let df : DataFile :=
      { name := pf.name
        cid := pf.cid
        header := { info := { (HeaderInfo.Copy pf.header.info) with type := NodeType.dataFile }
                    metadata := pf.header.metadata
                    contentID := none
                    value := none }
        ratchet := none
        metadata := none
        content := v }
    match df.Put s with
    | .error e => .error e
    | .ok (res, _, s2) => .ok (res, s2)
  | .byteStream bytes =>
    match File.Put { pf with content := some bytes } s with
    | .error e => .error e
    | .ok (res, _, s2) => .ok (res, s2)

/-- Source `DataFile.Update` (lines 1478-1501): with a structured-data
source it replaces its own content and puts itself; with a byte stream
it transmutes to a `File` (copying the header info and metadata, setting
the type to `NTFile`) and calls `Put` on it — again without assigning
the new node's `ratchet` field. -/
def DataFile.Update (df : DataFile) (change : UpdateSource) (s : Store) :
    Except Err (PutResult × Store) :=
  match change with
  | .dataSource v =>
    match DataFile.Put { df with content := v } s with
    | .error e => .error e
    | .ok (res, _, s2) => .ok (res, s2)
  | .byteStream bytes =>
    let f : File :=
      { name := df.name
        cid := df.cid
        header := { info := { (HeaderInfo.Copy df.header.info) with type := NodeType.file }
                    metadata := df.header.metadata
                    contentID := none
                    value := none }
        ratchet := none
        content := some bytes }
    match f.Put s with
    | .error e => .error e
    | .ok (res, _, s2) => .ok (res, s2)

/-- Source `Tree.Get` (lines 455-481): empty path returns the tree
itself; otherwise look the head up in the link table (`ErrNotFound` when
absent), `LoadNode` at the last segment, recurse through `LoadTree`
otherwise. -/
def Tree.Get (t : Tree) (path : List String) (s : Store) : Except Err Node :=
  match path with
  | [] => .ok (.tree t)
  | head :: tail =>
    match t.ensureLinks s with
    | .error e => .error e
    | .ok t2 =>
      match PrivateLinks.Get (t2.links.getD []) head with
      | none => .error .notFound
      | some link =>
        match tail with
        | [] => LoadNode s head link.cid link.key
        | _ :: _ =>
          match LoadTree s head link.key link.cid with
          | .error e => .error e
          | .ok ch => ch.Get tail s

/-- Source `Tree.getOrCreateDirectChildTree` (lines 616-626): load the
linked child as a tree when the link exists (no type check), otherwise
create a fresh empty tree under this tree's bare filter.  Returns the
child together with the receiver (whose link table may just have been
loaded). -/
def Tree.getOrCreateDirectChildTree (t : Tree) (name : String) (s : Store) :
    Except Err (Tree × Tree × Store) :=
  match t.ensureLinks s with
  | .error e => .error e
  | .ok t2 =>
    match PrivateLinks.Get (t2.links.getD []) name with
    | none =>
      let c := NewEmptyTree s t2.header.info.bareNamefilter name
      .ok (c.1, t2, c.2)
    | some link =>
      match LoadTree s name link.key link.cid with
      | .error e => .error e
      | .ok child => .ok (child, t2, s)

/-- Source `Tree.Mkdir` (lines 516-541): empty path is an error; get or
create the head child; at the last segment `Put` the child, otherwise
recurse — on the receiver itself (`pt.Mkdir(tail)` in the source, not on
the child); then link the head to the returned result and `Put` the
receiver. -/
def Tree.Mkdir (t : Tree) (path : List String) (s : Store) :
    Except Err (PutResult × Tree × Store) :=
  match path with
  | [] => .error .invalidPath
  | head :: tail =>
    match t.getOrCreateDirectChildTree head s with
    | .error e => .error e
    | .ok (child, t2, s2) =>
      match (match tail with
             | [] =>
               (match child.Put s2 with
                | .error e => .error e
                | .ok (res, _, s3) => .ok (res, t2, s3))
             | _ :: _ => t2.Mkdir tail s2 :
             Except Err (PutResult × Tree × Store)) with
      | .error e => .error e
      | .ok (res, t3, s3) =>
        let t4 := t3.updateUserlandLink head res s3.now
        t4.Put s3

/-- Source `Tree.Rm` (lines 483-514): empty path is an error.  At the
last segment the link is removed with no existence check and the tree is
`Put`.  For a longer path the head must exist (`ErrNotFound`), the child
is loaded and recursed into, the head link is updated, and the tree is
`Put`. -/
def Tree.Rm (t : Tree) (path : List String) (s : Store) :
    Except Err (PutResult × Tree × Store) :=
  match path with
  | [] => .error .invalidPath
  | head :: tail =>
    match t.ensureLinks s with
    | .error e => .error e
    | .ok t2 =>
      match tail with
      | [] =>
        let t3 := t2.removeUserlandLink head s.now
        t3.Put s
      | _ :: _ =>
        match PrivateLinks.Get (t2.links.getD []) head with
        | none => .error .notFound
        | some link =>
          match LoadTree s link.name link.key link.cid with
          | .error e => .error e
          | .ok child =>
            match child.Rm tail s with
            | .error e => .error e
            | .ok (res, _, s3) =>
              let t4 := t2.updateUserlandLink head res s3.now
              t4.Put s3

/-- A directory entry as returned by `ReadDir`
(`base.NewFSDirEntry(link.Name, link.IsFile)`). -/
structure DirEntry where
  name : String
  isFile : Bool
deriving DecidableEq, Repr

/-- The `for i, link := range SortedSlice { append; if i == n { break } }`
loop of `Tree.ReadDir`: the break fires only after the entry at index
`n` has been appended. -/
def readDirLoop (links : List PrivateLink) (i : Nat) (n : Nat) : List DirEntry :=
  match links with
  | [] => []
  | l :: rest =>
    { name := l.name, isFile := l.isFile } ::
      (if i = n then [] else readDirLoop rest (i + 1) n)

/-- Source `Tree.ReadDir` (lines 362-380): ensure the link table is
loaded, replace a negative `n` by the table size, then run the loop over
`SortedSlice`. -/
def Tree.ReadDir (t : Tree) (n : Int) (s : Store) : Except Err (List DirEntry) :=
  match t.ensureLinks s with
  | .error e => .error e
  | .ok t2 =>
    .ok (readDirLoop (PrivateLinks.SortedSlice (t2.links.getD []))
          0
          (if n < 0 then (t2.links.getD []).length else n.toNat))

/-- The loaded link table of a tree, as `ReadDir` and `ensureLinks`
would observe it. -/
def Tree.loadedLinks (t : Tree) (s : Store) : Except Err PrivateLinks :=
  match t.ensureLinks s with
  | .error e => .error e
  | .ok t2 => .ok (t2.links.getD [])

/-- Source `cidFromPrivateName` (lines 1136-1149): look the name up in
the HAMT (`ErrNotFound` on a miss) and decode the CID bytes. -/
def cidFromPrivateName (s : Store) (pn : Name) : Except Err Nat :=
  match s.hamtFind pn with
  | none => .error .notFound
  | some id => .ok id

/-- A history entry (`base.HistoryEntry`), restricted to the fields the
private `history` function fills in. -/
structure HistoryEntry where
  cid : Nat
  size : Int
  type : NodeType
  mtime : Int
  key : Key
  pointer : Name
deriving DecidableEq, Repr

/-- The zero value of `Header` — what the Go `history` loop reads when
`loadHeader` fails, because that error is only logged, never returned
(lines 596-599). -/
def zeroHeaderInfo : HeaderInfo :=
  { wnfs := 0
    type := .dir
    mode := 0
    ctime := 0
    mtime := 0
    size := 0
    inumber := 0
    bareNamefilter := []
    ratchetEnc := none }

/-- One iteration of the `history` revision loop: derive the key and
name of the revision, resolve its header CID through the index, and read
the header (ignoring a header-load failure, as the source does). -/
def historyEntryOf (s : Store) (bnf : BareNamefilter) (r : Spiral) : Except Err HistoryEntry :=
  let key := r.Key
  let pn := ToName (AddKey bnf key)
  match cidFromPrivateName s pn with
  | .error e => .error e
  | .ok headerID =>
    let info :=
      match loadHeader s key headerID with
      | .ok h => h.info
      | .error _ => zeroHeaderInfo
    .ok { cid := headerID
          size := info.size
          type := info.type
          mtime := info.mtime
          key := key
          pointer := pn }

/-- Collect history entries for a list of revisions. -/
def historyEntries (s : Store) (bnf : BareNamefilter) : List Spiral → Except Err (List HistoryEntry)
  | [] => .ok []
  | r :: rest =>
    match historyEntryOf s bnf r with
    | .error e => .error e
    | .ok e =>
      match historyEntries s bnf rest with
      | .error e2 => .error e2
      | .ok es => .ok (e :: es)

/-- Source `history` (lines 547-614), shared by `Tree.History` and
`File.History`.  It fetches the oldest known ratchet for the node's
INumber; when the store has no entry (`OldestKnownRatchet` returns nil
with a nil error) the source executes `return nil, err` — and `err` is
nil on that branch, so the function returns an empty history with no
error.  Otherwise it walks `Previous`, prepends the current revision,
and builds the entries. -/
def history (s : Store) (bnf : BareNamefilter) (inum : INumber) (recent : Spiral)
    (maxRevs : Nat) : Except Err (List HistoryEntry) :=
  match s.oldestKnownRatchet inum with
  | none => .ok []
  | some old =>
    match recent.Previous old maxRevs with
    | .error e => .error e
    | .ok ratchets => historyEntries s bnf (recent :: ratchets)

/-- The spec-side definition for claim C7 (section 9 of the spec: "this
spec requires `size = len(cborEncode(content))`"): the CBOR encoding of
a data-file value, following the spec's words, restricted to the null
and byte-string values used in this development (major type 2 with the
standard length headers; `0xf6` is null). -/
def cborEncodeValue : Option Val → List Nat
  | none => [246]
  | some bytes =>
    (if bytes.length < 24 then [64 + bytes.length]
     else if bytes.length < 256 then [88, bytes.length]
     else [89, bytes.length / 256, bytes.length % 256]) ++ bytes

/-- Extract the payload of a successful result, with an explicit
fallback for the error case. -/
def exOk {α : Type} (dflt : α) : Except Err α → α
  | .ok a => a
  | .error _ => dflt

/-- Whether a result is a success. -/
def exIsOk {α : Type} : Except Err α → Bool
  | .ok _ => true
  | .error _ => false

/-- Forget the error payload of a result (for decidable comparisons). -/
def exToOption {α : Type} : Except Err α → Option α
  | .ok a => some a
  | .error _ => none

/-- The string order used by `SortedSlice` is total. -/
instance : IsTotal String (fun a b => strLe a b = true) where
  total := by
    have h : ∀ as bs : List Char, strListLe as bs = true ∨ strListLe bs as = true := by
      intro as
      induction as with
      | nil => intro bs; left; rfl
      | cons a as ih =>
        intro bs
        cases bs with
        | nil => right; rfl
        | cons b bs =>
          by_cases h1 : a.val.toNat < b.val.toNat
          · left; simp [strListLe, h1]
          · by_cases h2 : b.val.toNat < a.val.toNat
            · right; simp [strListLe, h2]
            · rcases ih bs with h3 | h3
              · left; simp [strListLe, h1, h2, h3]
              · right; simp [strListLe, h1, h2, h3]
    intro a b
    exact h a.data b.data

/-- The string order used by `SortedSlice` is transitive. -/
instance : IsTrans String (fun a b => strLe a b = true) where
  trans := by
    have h : ∀ as bs cs : List Char,
        strListLe as bs = true → strListLe bs cs = true → strListLe as cs = true := by
      intro as
      induction as with
      | nil => intro bs cs _ _; rfl
      | cons a as ih =>
        intro bs cs h1 h2
        cases bs with
        | nil => simp [strListLe] at h1
        | cons b bs =>
          cases cs with
          | nil => simp [strListLe] at h2
          | cons c cs =>
            by_cases hab : a.val.toNat < b.val.toNat
            · by_cases hbc : b.val.toNat < c.val.toNat
              · have hac : a.val.toNat < c.val.toNat := Nat.lt_trans hab hbc
                simp [strListLe, hac]
              · by_cases hcb : c.val.toNat < b.val.toNat
                · simp [strListLe, hbc, hcb] at h2
                · have hbc2 : b.val.toNat = c.val.toNat := by omega
                  have hac : a.val.toNat < c.val.toNat := by omega
                  simp [strListLe, hac]
            · by_cases hba : b.val.toNat < a.val.toNat
              · simp [strListLe, hab, hba] at h1
              · have hab2 : a.val.toNat = b.val.toNat := by omega
                by_cases hbc : b.val.toNat < c.val.toNat
                · have hac : a.val.toNat < c.val.toNat := by omega
                  simp [strListLe, hac]
                · by_cases hcb : c.val.toNat < b.val.toNat
                  · simp [strListLe, hbc, hcb] at h2
                  · have hac1 : ¬ a.val.toNat < c.val.toNat := by omega
                    have hac2 : ¬ c.val.toNat < a.val.toNat := by omega
                    simp [strListLe, hab, hba] at h1
                    simp [strListLe, hbc, hcb] at h2
                    simp [strListLe, hac1, hac2]
                    exact ih bs cs h1 h2
    intro a b c
    exact h a.data b.data c.data

/-- The initial (empty) store with zeroed randomness tape and clock. -/
def emptyStore : Store :=
  { blocks := [], nextCid := 0, hamt := [], ratchets := [], nextRand := 0, now := 0 }

/-- Fallback values for `exOk` extractions in the concrete scenarios. -/
def dummyHeader : Header :=
  { info := zeroHeaderInfo, metadata := none, contentID := none, value := none }

/-- Fallback `PutResult` for `exOk`. -/
def dummyPutResult : PutResult :=
  { cid := 0, size := 0, type := .dir, userland := none, key := 0, pointer := { bare := [], key := 0 } }

/-- Fallback `Tree` for `exOk`. -/
def dummyTree : Tree :=
  { name := "", cid := none, header := dummyHeader, ratchet := none, links := none }

/-- Fallback `File` for `exOk`. -/
def dummyFile : File :=
  { name := "", cid := none, header := dummyHeader, ratchet := none, content := none }

/-- Scenario for claim C3: an empty root tree. -/
def c3Step0 : Tree × Store :=
  NewEmptyTree emptyStore IdentityBareNamefilter ("root")

/-- Scenario for claim C3: a fresh file under the root's bare filter. -/
def c3Step1 : File × Store :=
  NewFile c3Step0.2 c3Step0.1.header.info.bareNamefilter (some [104, 105])

/-- Scenario for claim C3: the file is put. -/
def c3FilePut : PutResult × File × Store :=
  exOk (dummyPutResult, dummyFile, emptyStore) (c3Step1.1.Put c3Step1.2)

/-- Scenario for claim C3: the root links the file under the name `x`
(the leaf step of `Tree.Add`). -/
def c3Tree1 : Tree :=
  c3Step0.1.updateUserlandLink ("x") c3FilePut.1 0

/-- Scenario for claim C3: the root is put, giving the state on which
`Mkdir` is invoked. -/
def c3TreePut : PutResult × Tree × Store :=
  exOk (dummyPutResult, dummyTree, emptyStore) (c3Tree1.Put c3FilePut.2.2)

/-- Scenario for claim C3: `Mkdir(["x"])` over the existing file leaf. -/
def c3MkdirRes : Except Err (PutResult × Tree × Store) :=
  c3TreePut.2.1.Mkdir (["x"]) c3TreePut.2.2

/-- Scenario for claim C3: the state after the (successful) `Mkdir`. -/
def c3After : PutResult × Tree × Store :=
  exOk (dummyPutResult, dummyTree, emptyStore) c3MkdirRes

/-- Scenario for claim C3: resolving the path `["x"]` after `Mkdir`. -/
def c3GetAfter : Except Err Node :=
  c3After.2.1.Get (["x"]) c3After.2.2

/-- Scenario for claim C4: an empty root tree (its link table is the
empty, loaded map). -/
def c4Init : Tree × Store :=
  NewEmptyTree emptyStore IdentityBareNamefilter ("root")

/-- Scenario for claim C4: removing the absent leaf `f`. -/
def c4RmRes : Except Err (PutResult × Tree × Store) :=
  c4Init.1.Rm (["f"]) c4Init.2

/-- Scenario for claim C6: a header with distinct `Mode` and `Ctime`. -/
def c6Info : HeaderInfo :=
  { wnfs := LatestVersion
    type := .dir
    mode := 420
    ctime := 1000
    mtime := 0
    size := 0
    inumber := 0
    bareNamefilter := []
    ratchetEnc := none }

/-- Scenario for claim C6: a tree with that header. -/
def c6Tree : Tree :=
  { name := "d"
    cid := none
    header := { info := c6Info, metadata := none, contentID := none, value := none }
    ratchet := some (NewSpiral 0)
    links := some [] }

/-- Scenario for claim C6: a file with the same mode and ctime. -/
def c6File : File :=
  { name := "f"
    cid := none
    header := { info := { c6Info with type := .file }, metadata := none, contentID := none,
                value := none }
    ratchet := some (NewSpiral 0)
    content := none }

/-- Scenario for claim C6: a data file with the same mode and ctime. -/
def c6DataFile : DataFile :=
  { name := "v"
    cid := none
    header := { info := { c6Info with type := .dataFile }, metadata := none, contentID := none,
                value := none }
    ratchet := some (NewSpiral 0)
    metadata := none
    content := none }

/-- Scenario for claims C1 and C7: a fresh data file with a two-byte
content value. -/
def freshDataFile : DataFile × Store :=
  NewDataFile emptyStore ("data") (some [1, 2]) IdentityBareNamefilter

/-- A concrete link for the C8/C9 witnesses (child `b`). -/
def cwLinkB : PrivateLink :=
  { name := "b", size := 2, isFile := true, cid := 11, key := 7,
    pointer := { bare := [3], key := 7 } }

/-- A concrete link for the C8/C9 witnesses (child `a`). -/
def cwLinkA : PrivateLink :=
  { name := "a", size := 3, isFile := false, cid := 12, key := 8,
    pointer := { bare := [4], key := 8 } }

/-- A concrete directory with two (unsorted) links for the C8/C9
witnesses. -/
def cwTree : Tree :=
  { name := "d"
    cid := none
    header := { info := c6Info, metadata := none, contentID := none, value := none }
    ratchet := some (NewSpiral 5)
    links := some [cwLinkB, cwLinkA] }

/-- A link returned by a name lookup bears the looked-up name. -/
theorem get_name_eq (pls : PrivateLinks) (n : String) (l : PrivateLink)
    (h : PrivateLinks.Get pls n = some l) : l.name = n := by
  induction pls with
  | nil => simp [PrivateLinks.Get] at h
  | cons x rest ih =>
    by_cases hx : x.name = n
    · simp [PrivateLinks.Get, hx] at h
      rw [← h]
      exact hx
    · simp [PrivateLinks.Get, hx] at h
      exact ih h

/-- Lookup succeeds for every name present in the table. -/
theorem get_isSome_of_mem (pls : PrivateLinks) (n : String)
    (h : n ∈ pls.map (fun l => l.name)) : (PrivateLinks.Get pls n).isSome = true := by
  induction pls with
  | nil => simp at h
  | cons x rest ih =>
    by_cases hx : x.name = n
    · simp [PrivateLinks.Get, hx]
    · simp only [List.map_cons, List.mem_cons] at h
      rcases h with h | h
      · exact absurd h.symm hx
      · simp only [PrivateLinks.Get, hx, if_false]
        exact ih h

/-- `filterMap` preserves length when the function succeeds everywhere. -/
theorem length_filterMap_all_some {α β : Type} (f : α → Option β) :
    ∀ l : List α, (∀ a ∈ l, (f a).isSome = true) → (l.filterMap f).length = l.length := by
  intro l
  induction l with
  | nil => intro _; rfl
  | cons a rest ih =>
    intro h
    have ha := h a (List.mem_cons_self a rest)
    rcases hfa : f a with _ | b
    · rw [hfa] at ha
      simp at ha
    · simp only [List.filterMap_cons, hfa, List.length_cons]
      rw [ih (fun x hx => h x (List.mem_cons_of_mem a hx))]

/-- The sorted slice of a link table is pairwise ascending by name. -/
theorem sortedSlice_pairwise (pls : PrivateLinks) :
    List.Pairwise (fun a b => strLe a.name b.name = true) (PrivateLinks.SortedSlice pls) := by
  unfold PrivateLinks.SortedSlice
  apply List.pairwise_filterMap.mpr
  have hs : List.Pairwise (fun a b => strLe a b = true)
      (List.insertionSort (fun a b => strLe a b = true) (pls.map (fun l => l.name))) :=
    List.sorted_insertionSort _ _
  exact hs.imp (fun {a b} hab x hx y hy => by
    rw [Option.mem_def] at hx hy
    rw [get_name_eq pls a x hx, get_name_eq pls b y hy]
    exact hab)

/-- The sorted slice has one entry per link. -/
theorem sortedSlice_length (pls : PrivateLinks) :
    (PrivateLinks.SortedSlice pls).length = pls.length := by
  unfold PrivateLinks.SortedSlice
  rw [length_filterMap_all_some _ _ (fun n hn =>
    get_isSome_of_mem pls n ((List.perm_insertionSort _ _).mem_iff.mp hn))]
  rw [(List.perm_insertionSort _ _).length_eq, List.length_map]

/-- The `ReadDir` loop takes the first `n + 1 - i` entries (the break
fires after appending index `n`). -/
theorem readDirLoop_eq_take :
    ∀ (links : List PrivateLink) (i n : Nat), i ≤ n →
      readDirLoop links i n =
        (links.take (n + 1 - i)).map (fun l => { name := l.name, isFile := l.isFile }) := by
  intro links
  induction links with
  | nil => intro i n _; simp [readDirLoop]
  | cons l rest ih =>
    intro i n hin
    have harith : n + 1 - i = (n - i) + 1 := by omega
    rw [harith, List.take_succ_cons, List.map_cons]
    by_cases hi : i = n
    · subst hi
      simp [readDirLoop]
    · have hlt : i + 1 ≤ n := by omega
      have harith2 : n - i = n + 1 - (i + 1) := by omega
      simp only [readDirLoop, hi, if_false]
      rw [harith2, ih (i + 1) n hlt]

/-- `putRatchet` never touches the block store. -/
theorem putRatchet_blocks (s : Store) (inum : INumber) (r : Spiral) :
    ((s.putRatchet inum r).2).blocks = s.blocks := by
  unfold Store.putRatchet
  cases hf : s.ratchets.find? (fun e => e.1 = inum) with
  | none => simp
  | some e => simp

/-- After the two block writes, the ratchet-store write and the index
write of a `Put`, the first written block is still found under its CID. -/
theorem lookupBlock_after_put_pipeline (s : Store) (b1 b2 : BlockBody) (inum : INumber)
    (r : Spiral) (n : Name) :
    (((((s.putBlock b1).2.putBlock b2).2.putRatchet inum r).2.hamtSet n
        (((s.putBlock b1).2.putBlock b2).1)).lookupBlock ((s.putBlock b1).1)) = some b1 := by
  unfold Store.lookupBlock
  have hb : (((((s.putBlock b1).2.putBlock b2).2.putRatchet inum r).2.hamtSet n
      (((s.putBlock b1).2.putBlock b2).1)).blocks) =
      (s.nextCid + 1, b2) :: (s.nextCid, b1) :: s.blocks := by
    show ((((s.putBlock b1).2.putBlock b2).2.putRatchet inum r).2).blocks = _
    rw [putRatchet_blocks]
    rfl
  rw [hb]
  show (((s.nextCid + 1, b2) :: (s.nextCid, b1) :: s.blocks).find?
    (fun e => e.1 = s.nextCid)).map (fun e => e.2) = some b1
  rw [List.find?_cons_of_neg _ (by simp), List.find?_cons_of_pos _ (by simp)]
  rfl

/-- C1: for a node reached by a successful `Put`, the source is expected
to write the new ratchet state into the ratchet store and the new
`name → header CID` mapping into the external index; `DataFile.Put`
does neither — it succeeds while leaving both the HAMT index and the
ratchet store exactly as they were. -/
theorem dataFilePut_skips_index_and_ratchet_store (df : DataFile) (r : Spiral) (s : Store)
    (h : df.ratchet = some r) :
    ∃ pr d2 s2, df.Put s = .ok (pr, d2, s2) ∧ s2.hamt = s.hamt ∧ s2.ratchets = s.ratchets := by
  rcases df with ⟨nm, cid, hdr, rat, md, ct⟩
  cases h
  exact ⟨_, _, _, rfl, rfl, rfl⟩

/-- Witness for C1 at a concrete fresh data file. -/
theorem dataFilePut_skips_index_and_ratchet_store_witness :
    ∃ pr d2 s2, freshDataFile.1.Put freshDataFile.2 = .ok (pr, d2, s2) ∧
      s2.hamt = freshDataFile.2.hamt ∧ s2.ratchets = freshDataFile.2.ratchets :=
  dataFilePut_skips_index_and_ratchet_store freshDataFile.1 (NewSpiral 1) freshDataFile.2 rfl

/-- C2: when the ratchet store has no oldest-known ratchet for the
node's INumber (nil ratchet, nil error), `history` does not return
`ErrNoHistory`: the source's `return nil, err` on that branch returns
the nil error, i.e. a silent empty history. -/
theorem history_missing_oldest_is_silent_success (s : Store) (bnf : BareNamefilter)
    (inum : INumber) (recent : Spiral) (maxRevs : Nat)
    (h : s.oldestKnownRatchet inum = none) :
    history s bnf inum recent maxRevs = .ok [] := by
  unfold history
  rw [h]

/-- Witness for C2 on the empty store. -/
theorem history_missing_oldest_is_silent_success_witness :
    history emptyStore [] 0 (NewSpiral 0) 10 = .ok [] :=
  history_missing_oldest_is_silent_success emptyStore [] 0 (NewSpiral 0) 10 rfl

/-- C3: `Mkdir(["x"])` over a tree whose link table maps `x` to a file
succeeds (the source checks no node type), and afterwards the full path
`["x"]` resolves via `Get` to a non-directory node — refuting the claim
that after a successful `Mkdir(p)` every prefix of `p` resolves to a
directory. -/
theorem mkdir_over_file_leaf_resolves_to_non_directory :
    ((PrivateLinks.Get (c3TreePut.2.1.links.getD []) ("x")).map (fun l => l.isFile)
        = some true) ∧
      exIsOk c3MkdirRes = true ∧
      (exToOption c3GetAfter).map Node.isDirNode = some false := by
  decide

/-- Counterexample for C4: removing the absent leaf `f` from a tree
whose (loaded, empty) link table has no such link returns a successful
`PutResult`, not `ErrNotFound`. -/
theorem rm_absent_leaf_succeeds :
    c4Init.1.links = some [] ∧ exIsOk c4RmRes = true := by
  decide

/-- C4 (amended): `Rm` returns `ErrNotFound` only when a non-final path
segment is absent from the link table; removing an absent leaf link
succeeds as a no-op removal followed by `Put`. -/
theorem rm_notFound_only_for_missing_interior_segment (t : Tree) (l : PrivateLinks)
    (rt : Spiral) (s : Store) (name : String)
    (hl : t.links = some l) (hr : t.ratchet = some rt)
    (habs : PrivateLinks.Get l name = none) :
    (∃ pr t2 s2, t.Rm [name] s = .ok (pr, t2, s2)) ∧
    (∀ seg rest, t.Rm (name :: seg :: rest) s = .error .notFound) := by
  rcases t with ⟨nm, cid, hdr, rat, lnks⟩
  cases hl
  cases hr
  constructor
  · exact ⟨_, _, _, rfl⟩
  · intro seg rest
    simp only [Tree.Rm, Tree.ensureLinks, Option.getD_some, habs]

/-- Witness for C4's amended claim on a concrete empty tree. -/
theorem rm_notFound_only_for_missing_interior_segment_witness :
    (∃ pr t2 s2, c4Init.1.Rm [("f")] c4Init.2 = .ok (pr, t2, s2)) ∧
    (∀ seg rest, c4Init.1.Rm (("f") :: seg :: rest) c4Init.2 = .error .notFound) :=
  rm_notFound_only_for_missing_interior_segment c4Init.1 [] (NewSpiral 1) c4Init.2 ("f")
    rfl rfl rfl

/-- C5: both type transmutations build the new node without assigning
its ratchet (nil `*ratchet.Spiral`), so the `Put` that should yield the
transmuted node dereferences a nil ratchet (`Inc` panics) instead of
succeeding — for every file, every structured value, every data file,
every byte stream and every store. -/
theorem update_transmutation_put_panics_on_nil_ratchet :
    ∀ (pf : File) (v : Option Val) (d : DataFile) (bytes : List Nat) (s : Store),
      pf.Update (.dataSource v) s = .error .nilRatchet ∧
      d.Update (.byteStream bytes) s = .error .nilRatchet := by
  intro pf v d bytes s
  exact ⟨rfl, rfl⟩

/-- C6: `Tree.Mode()` reads `Ctime`, not `Mode`: on a header with
`Mode = 420` and `Ctime = 1000` the tree reports mode 1000 while `File`
and `DataFile` report the `Mode` field as the claim states. -/
theorem treeMode_reads_ctime_not_mode :
    Tree.Mode c6Tree = 1000 ∧
    c6Tree.header.info.mode = 420 ∧
    Tree.Mode c6Tree ≠ c6Tree.header.info.mode ∧
    File.Mode c6File = 420 ∧
    DataFile.Mode c6DataFile = 420 := by
  decide

/-- C7: `DataFile.Put` succeeds but never updates the size: the header
size after `Put` (and the size in the `PutResult`) equals whatever it
was before, regardless of the content value. -/
theorem dataFilePut_leaves_size_unchanged (df : DataFile) (r : Spiral) (s : Store)
    (h : df.ratchet = some r) :
    ∃ pr d2 s2, df.Put s = .ok (pr, d2, s2) ∧
      d2.header.info.size = df.header.info.size ∧
      pr.size = df.header.info.size := by
  rcases df with ⟨nm, cid, hdr, rat, md, ct⟩
  cases h
  exact ⟨_, _, _, rfl, rfl, rfl⟩

/-- Witness for C7: a fresh data file with content `[1, 2]` keeps size 0
after `Put`, while the CBOR encoding of its content has length 3. -/
theorem dataFilePut_leaves_size_unchanged_witness :
    (∃ pr d2 s2, freshDataFile.1.Put freshDataFile.2 = .ok (pr, d2, s2) ∧
        d2.header.info.size = freshDataFile.1.header.info.size ∧
        pr.size = freshDataFile.1.header.info.size) ∧
      freshDataFile.1.header.info.size = 0 ∧
      (cborEncodeValue (some [1, 2])).length = 3 :=
  ⟨dataFilePut_leaves_size_unchanged freshDataFile.1 (NewSpiral 1) freshDataFile.2 rfl,
   rfl, rfl⟩

/-- C8: after any successful `Tree.Put`, the directory's header size is
the sum of the sizes of its (loaded) child links, and every `ReadDir`
listing is sorted ascending by name. -/
theorem treePut_size_sum_and_sorted_readDir (t : Tree) (rt : Spiral) (s : Store)
    (hr : t.ratchet = some rt) :
    ∃ pr t2 s2, t.Put s = .ok (pr, t2, s2) ∧
      (∃ l2, t2.loadedLinks s2 = .ok l2 ∧ t2.header.info.size = PrivateLinks.SizeSum l2) ∧
      ∀ n : Int, ∃ es, t2.ReadDir n s2 = .ok es ∧
        List.Pairwise (fun a b => strLe a.name b.name = true) es := by
  rcases t with ⟨nm, cid, hdr, rat, lnks⟩
  cases hr
  cases lnks with
  | some l =>
    refine ⟨_, _, _, rfl, ⟨l, rfl, rfl⟩, ?_⟩
    intro n
    refine ⟨_, rfl, ?_⟩
    rw [readDirLoop_eq_take _ 0 _ (Nat.zero_le _)]
    rw [List.pairwise_map]
    exact (sortedSlice_pairwise _).sublist (List.take_sublist _ _)
  | none =>
    refine ⟨_, _, _, rfl, ⟨[], ?_, rfl⟩, ?_⟩
    · show Tree.loadedLinks _ _ = _
      simp only [Tree.loadedLinks, Tree.ensureLinks, lookupBlock_after_put_pipeline,
        unmarshalPrivateLinksBlock, if_pos]
      rfl
    · intro n
      refine ⟨[], ?_, List.Pairwise.nil⟩
      show Tree.ReadDir _ _ _ = _
      simp only [Tree.ReadDir, Tree.ensureLinks, lookupBlock_after_put_pipeline,
        unmarshalPrivateLinksBlock, if_pos]
      rfl

/-- Witness for C8 on a concrete two-child directory. -/
theorem treePut_size_sum_and_sorted_readDir_witness :
    ∃ pr t2 s2, cwTree.Put emptyStore = .ok (pr, t2, s2) ∧
      (∃ l2, t2.loadedLinks s2 = .ok l2 ∧ t2.header.info.size = PrivateLinks.SizeSum l2) ∧
      ∀ n : Int, ∃ es, t2.ReadDir n s2 = .ok es ∧
        List.Pairwise (fun a b => strLe a.name b.name = true) es :=
  treePut_size_sum_and_sorted_readDir cwTree (NewSpiral 5) emptyStore rfl

/-- C9: `ReadDir(n)` on a tree with `k` loaded links returns `n + 1`
entries when `0 ≤ n < k` (the break fires only after appending the
entry at index `n`) and all `k` entries when `n < 0` or `n ≥ k`. -/
theorem readDir_entry_count (t : Tree) (l : PrivateLinks) (n : Int) (s : Store)
    (hl : t.links = some l) :
    ∃ es, t.ReadDir n s = .ok es ∧
      es.length = if 0 ≤ n ∧ n.toNat < l.length then n.toNat + 1 else l.length := by
  rcases t with ⟨nm, cid, hdr, rat, lnks⟩
  cases hl
  refine ⟨_, rfl, ?_⟩
  rw [readDirLoop_eq_take _ 0 _ (Nat.zero_le _)]
  rw [List.length_map, List.length_take]
  simp only [Option.getD_some, sortedSlice_length, Nat.sub_zero]
  by_cases hn : n < 0
  · rw [if_pos hn]
    rw [if_neg (by omega)]
    omega
  · rw [if_neg hn]
    split_ifs with h2
    · omega
    · omega

/-- Witness for C9: `ReadDir(0)` on a concrete two-child directory
returns one entry. -/
theorem readDir_entry_count_witness :
    ∃ es, cwTree.ReadDir 0 emptyStore = .ok es ∧
      es.length = if 0 ≤ (0 : Int) ∧ (0 : Int).toNat < ([cwLinkB, cwLinkA] : PrivateLinks).length
                  then (0 : Int).toNat + 1 else ([cwLinkB, cwLinkA] : PrivateLinks).length :=
  readDir_entry_count cwTree [cwLinkB, cwLinkA] 0 emptyStore rfl

/-- C10: `NewEmptyRoot` ignores its `rootKey` argument entirely: with
the same store (hence the same randomness tape and clock) and name, any
two keys produce identical roots, and the root's actual key is derived
from the freshly generated spiral ratchet. -/
theorem newEmptyRoot_ignores_rootKey :
    ∀ (s : Store) (name : String) (k1 k2 : Key),
      NewEmptyRoot s name k1 = NewEmptyRoot s name k2 ∧
      (NewEmptyRoot s name k1).1.ratchet = some (NewSpiral (s.nextRand + 1)) ∧
      Tree.KeyOf (NewEmptyRoot s name k1).1 = some (NewSpiral (s.nextRand + 1)).Key := by
  intro s name k1 k2
  exact ⟨rfl, rfl, rfl⟩

end Wnfs
